import Mathlib

/-
Verification of the balance-sheet validation and flattening pipeline
(src/question2/utils.py) in a shallow embedding.

Modelling conventions:
- A balance-sheet node is a Python dict that may carry the keys "name",
  "value", "account_id" and "items".  The code always reads "name" as a
  string where it uses it, so name is modelled as a total String.  The
  key "value" may be absent (Option Rat); "account_id" may be absent or
  explicitly null (Option (Option String), where none = key absent and
  some none = key present with value null); "items" may be absent
  (Option (List Node), where some [] is an explicitly empty child list).
- Python float values and float arithmetic are modelled as exact
  rationals (Rat); the literal 0.01 becomes 1/100.
- Raised Python exceptions become the error side of Except.  A raised
  ValueError or AssertionError carries exactly its message string, as in
  the source; logger output is observability only and is not modelled.
- The polars DataFrame built from the collected row dicts is modelled as
  the list of rows in insertion order.
-/

inductive Node where
  | mk (name : String) (value : Option Rat) (account_id : Option (Option String)) (items : Option (List Node))
deriving Repr

def Node.name : Node → String
  | .mk nm _ _ _ => nm

def Node.value : Node → Option Rat
  | .mk _ v _ _ => v

def Node.account_id : Node → Option (Option String)
  | .mk _ _ a _ => a

def Node.items : Node → Option (List Node)
  | .mk _ _ _ its => its

/-- Top-level parsed document as consumed by get_all_child_values and
validate_balance_sheet_equation: a dict in which each of the three
section keys may be present or absent. -/
structure BalanceSheetData where
  assets : Option Node
  liabilities : Option Node
  equity : Option Node

/-- Errors raised by the validation code: KeyError from a missing dict
key, ValueError and AssertionError carrying their message strings. -/
inductive PyErr where
  | keyError (key : String)
  | valueError (msg : String)
  | assertionError (msg : String)
deriving Repr, DecidableEq

/-- One output row of the flattener, in the field order of the row dict
built at utils.py lines 29-34. -/
structure FlatRecord where
  account_id : String
  path : String
  name : String
  value : Rat
deriving Repr, DecidableEq

/-- The row emitted for the node itself (utils.py lines 28-34): a single
row when the node has a "value" key and a present, non-null
"account_id", and nothing otherwise. -/
def ownRow (nm : String) (v : Option Rat) (a : Option (Option String)) (current_path : String) : List FlatRecord :=
  match v, a with
  | some vv, some (some acc) => [{ account_id := acc, path := current_path, name := nm, value := vv }]
  | _, _ => []

/-- Path passed to the children of a node (utils.py line 40):
current_path + "/" + the PARENT node name, or just the parent name when
current_path is empty. -/
def childPath (current_path : String) (parentName : String) : String :=
  if current_path = "" then parentName else current_path ++ "/" ++ parentName

mutual
/-- The inner traverse_node of get_all_child_values (utils.py lines
26-41): emit the own row, then recurse into the children with the
extended path. -/
def traverse_node : Node → String → List FlatRecord
  | .mk nm v a its, current_path =>
    ownRow nm v a current_path ++
      (match its with
       | none => []
       | some children => traverseChildren children (childPath current_path nm))

/-- The for-loop over node["items"] (utils.py lines 38-41): children are
visited in list order, all with the same child path. -/
def traverseChildren : List Node → String → List FlatRecord
  | [], _ => []
  | c :: cs, p => traverse_node c p ++ traverseChildren cs p
end

/-- get_all_child_values (utils.py lines 8-49): traverse each of the
sections "assets", "liabilities", "equity" that is present in the
document, seeding the path with the section key, and collect the rows
in order. -/
def get_all_child_values (balance_sheet_data : BalanceSheetData) : List FlatRecord :=
  (match balance_sheet_data.assets with
   | some n => traverse_node n "assets"
   | none => []) ++
  (match balance_sheet_data.liabilities with
   | some n => traverse_node n "liabilities"
   | none => []) ++
  (match balance_sheet_data.equity with
   | some n => traverse_node n "equity"
   | none => [])

/-- Message of the ValueError raised at utils.py line 138.  Note that
the f-string interpolates only the node name: the declared value and the
children sum appear in the logger.error call, not in the exception. -/
def mismatchErrorMessage (nm : String) : String :=
  "Balance sheet validation failed: " ++ nm ++ " value does not match sum of its children"

/-- Message of the AssertionError raised at utils.py line 147. -/
def equationErrorMessage : String :=
  "Assets do not equal liabilities plus equity"

mutual
/-- validate_node_sum (utils.py lines 123-140): read the declared value,
return it for a node without an "items" key, otherwise validate the
children, sum their returned values, and raise when the declared value
differs from the sum by more than 0.01. -/
def validate_node_sum : Node → Except PyErr Rat
  | .mk nm v _ its =>
    match v with
    | none => .error (.keyError "value")
    | some node_value =>
      match its with
      | none => .ok node_value
      | some children =>
        match childrenSum children with
        | .error e => .error e
        | .ok children_sum =>
          if |node_value - children_sum| > 1 / 100 then
            .error (.valueError (mismatchErrorMessage nm))
          else
            .ok node_value

/-- The sum(validate_node_sum(child) for child in node["items"]) at
utils.py line 133: children are validated left to right and the first
failure propagates. -/
def childrenSum : List Node → Except PyErr Rat
  | [] => .ok 0
  | c :: cs =>
    match validate_node_sum c with
    | .error e => .error e
    | .ok v =>
      match childrenSum cs with
      | .error e => .error e
      | .ok rest => .ok (v + rest)
end

/-- validate_balance_sheet_equation (utils.py lines 105-152): validate
the three sections in order (a missing section key is a KeyError), then
assert that the assets total equals the liabilities total plus the
equity total, and return the assets total. -/
def validate_balance_sheet_equation (balance_sheet_data : BalanceSheetData) : Except PyErr Rat :=
  match balance_sheet_data.assets with
  | none => .error (.keyError "assets")
  | some assets_node =>
    match validate_node_sum assets_node with
    | .error e => .error e
    | .ok assets_value =>
      match balance_sheet_data.liabilities with
      | none => .error (.keyError "liabilities")
      | some liabilities_node =>
        match validate_node_sum liabilities_node with
        | .error e => .error e
        | .ok liabilities_value =>
          match balance_sheet_data.equity with
          | none => .error (.keyError "equity")
          | some equity_node =>
            match validate_node_sum equity_node with
            | .error e => .error e
            | .ok equity_value =>
              if assets_value = liabilities_value + equity_value then
                .ok assets_value
              else
                .error (.assertionError equationErrorMessage)

/-- Parsed JSON values, for the schema checker. -/
inductive Json where
  | null
  | bool (b : Bool)
  | num (q : Rat)
  | str (s : String)
  | arr (elements : List Json)
  | obj (fields : List (String × Json))

/-- Whether a JSON value is an object, the check made by the subschema
type object for each required property. -/
def Json.isObj : Json → Bool
  | .obj _ => true
  | _ => false

/-- Dict lookup on the field list of a parsed JSON object. -/
def lookupKey : List (String × Json) → String → Option Json
  | [], _ => none
  | (k, v) :: rest, key => if k = key then some v else lookupKey rest key

/-- The required keys of the schema at utils.py line 98. -/
def requiredKeys : List String := ["assets", "liabilities", "equity"]

/-- validate_balance_sheet_json_schema (utils.py lines 75-102), applied
to the parsed top-level dict: jsonschema.validate against the schema of
lines 91-99 passes (true) exactly when each required key is present and
its value is an object, and raises (false) otherwise.  Nothing below
the three top-level values is constrained. -/
def validate_balance_sheet_json_schema (balance_sheet_data : List (String × Json)) : Bool :=
  requiredKeys.all fun k =>
    match lookupKey balance_sheet_data k with
    | some v => v.isObj
    | none => false

/-
Specification-side definitions.  These follow the wording of the spec
(ancestor-name chains, document-order enumerations, exact trees) and are
compared with the source-side functions above.
-/

/-- Slash-join of a list of names. -/
def joinPath : List String → String
  | [] => ""
  | [x] => x
  | x :: y :: rest => x ++ "/" ++ joinPath (y :: rest)

mutual
/-- Specification flattener: a node reached through the ancestor-name
chain is emitted with path the slash-join of that chain, and its
children are reached through the chain extended with the name of the
node itself. -/
def specFlatten : List String → Node → List FlatRecord
  | ancestors, .mk nm v a its =>
    ownRow nm v a (joinPath ancestors) ++
      (match its with
       | none => []
       | some children => specFlattenList (ancestors ++ [nm]) children)

def specFlattenList : List String → List Node → List FlatRecord
  | _, [] => []
  | ancestors, c :: cs => specFlatten ancestors c ++ specFlattenList ancestors cs
end

/-- The record the flattener emits for a single node visited with a
given accumulated path, when the node qualifies. -/
def emitRecord (p : String) : Node → Option FlatRecord
  | .mk nm v a _ =>
    match v, a with
    | some vv, some (some acc) => some { account_id := acc, path := p, name := nm, value := vv }
    | _, _ => none

mutual
/-- Depth-first preorder enumeration of the nodes of a tree together
with the accumulated path each one is visited with: a node comes before
its children, and children appear in items order. -/
def preorderPaths : Node → String → List (String × Node)
  | .mk nm v a its, p =>
    (p, Node.mk nm v a its) ::
      (match its with
       | none => []
       | some children => preorderPathsList children (childPath p nm))

def preorderPathsList : List Node → String → List (String × Node)
  | [], _ => []
  | c :: cs, p => preorderPaths c p ++ preorderPathsList cs p
end

mutual
/-- Depth-first preorder enumeration of the nodes of a tree. -/
def allNodes : Node → List Node
  | .mk nm v a its =>
    Node.mk nm v a its ::
      (match its with
       | none => []
       | some children => allNodesList children)

def allNodesList : List Node → List Node
  | [] => []
  | c :: cs => allNodes c ++ allNodesList cs
end

/-- All nodes of a document, across the sections that are present, in
section order. -/
def docNodes (d : BalanceSheetData) : List Node :=
  (match d.assets with | some n => allNodes n | none => []) ++
  (match d.liabilities with | some n => allNodes n | none => []) ++
  (match d.equity with | some n => allNodes n | none => [])

/-- The sections present in a document, as (section key, root node)
pairs, in the order assets, liabilities, equity. -/
def presentSections (d : BalanceSheetData) : List (String × Node) :=
  (match d.assets with | some n => [("assets", n)] | none => []) ++
  (match d.liabilities with | some n => [("liabilities", n)] | none => []) ++
  (match d.equity with | some n => [("equity", n)] | none => [])

/-- Whether a node has both a "value" key and a present, non-null
"account_id", i.e. whether the flattener emits a row for it. -/
def hasRow : Node → Bool
  | .mk _ v a _ =>
    v.isSome &&
      (match a with
       | some (some _) => true
       | _ => false)

/-- The path-independent data of the row emitted for a qualifying node:
its name, its value and its account identifier. -/
def rowData : Node → Option (String × Rat × String)
  | .mk nm v a _ =>
    match v, a with
    | some vv, some (some acc) => some (nm, vv, acc)
    | _, _ => none

/-- Sum of the declared values of a list of nodes (absent values count
as 0; exact trees have no absent values). -/
def declaredSum : List Node → Rat
  | [] => 0
  | c :: cs => (c.value.getD 0) + declaredSum cs

mutual
/-- A tree is exact when every node carries a value and the value of
every node with children equals the exact sum of the declared values of
its children. -/
def exactTree : Node → Bool
  | .mk _ v _ its =>
    match v with
    | none => false
    | some vv =>
      match its with
      | none => true
      | some children => (decide (vv = declaredSum children)) && exactList children

def exactList : List Node → Bool
  | [] => true
  | c :: cs => exactTree c && exactList cs
end

mutual
/-- Induction principle for the nested tree type: to prove P of every
node and Q of every child list, handle leaves, internal nodes whose
child list satisfies Q, the empty list, and list cons. -/
theorem node_ind (P : Node → Prop) (Q : List Node → Prop)
    (h1 : ∀ nm v a, P (.mk nm v a none))
    (h2 : ∀ nm v a cs, Q cs → P (.mk nm v a (some cs)))
    (h3 : Q [])
    (h4 : ∀ c cs, P c → Q cs → Q (c :: cs)) :
    ∀ n, P n
  | .mk nm v a none => h1 nm v a
  | .mk nm v a (some cs) => h2 nm v a cs (nodeList_ind P Q h1 h2 h3 h4 cs)

theorem nodeList_ind (P : Node → Prop) (Q : List Node → Prop)
    (h1 : ∀ nm v a, P (.mk nm v a none))
    (h2 : ∀ nm v a cs, Q cs → P (.mk nm v a (some cs)))
    (h3 : Q [])
    (h4 : ∀ c cs, P c → Q cs → Q (c :: cs)) :
    ∀ cs, Q cs
  | [] => h3
  | c :: cs => h4 c cs (node_ind P Q h1 h2 h3 h4 c) (nodeList_ind P Q h1 h2 h3 h4 cs)
end

/-
Unfolding lemmas for the recursive functions (they are compiled by
well-founded recursion, so the defining equations are restated here in
simp-friendly form).
-/

theorem childrenSum_nil : childrenSum [] = .ok 0 := by
  simp [childrenSum]

theorem childrenSum_cons (c : Node) (cs : List Node) :
    childrenSum (c :: cs) =
      match validate_node_sum c with
      | .error e => .error e
      | .ok v =>
        match childrenSum cs with
        | .error e => .error e
        | .ok rest => .ok (v + rest) := by
  simp [childrenSum]

theorem validate_node_sum_leaf (nm : String) (v : Rat) (a : Option (Option String)) :
    validate_node_sum (.mk nm (some v) a none) = .ok v := by
  simp [validate_node_sum]

theorem validate_node_sum_novalue (nm : String) (a : Option (Option String))
    (its : Option (List Node)) :
    validate_node_sum (.mk nm none a its) = .error (.keyError "value") := by
  simp [validate_node_sum]

theorem validate_node_sum_internal (nm : String) (v : Rat) (a : Option (Option String))
    (cs : List Node) (s : Rat) (h : childrenSum cs = .ok s) :
    validate_node_sum (.mk nm (some v) a (some cs)) =
      if |v - s| > 1 / 100 then .error (.valueError (mismatchErrorMessage nm)) else .ok v := by
  simp [validate_node_sum, h]

theorem validate_node_sum_internal_err (nm : String) (v : Rat) (a : Option (Option String))
    (cs : List Node) (e : PyErr) (h : childrenSum cs = .error e) :
    validate_node_sum (.mk nm (some v) a (some cs)) = .error e := by
  simp [validate_node_sum, h]

theorem traverse_node_leaf (nm : String) (v : Option Rat) (a : Option (Option String))
    (p : String) :
    traverse_node (.mk nm v a none) p = ownRow nm v a p := by
  simp [traverse_node]

theorem traverse_node_internal (nm : String) (v : Option Rat) (a : Option (Option String))
    (cs : List Node) (p : String) :
    traverse_node (.mk nm v a (some cs)) p =
      ownRow nm v a p ++ traverseChildren cs (childPath p nm) := by
  simp [traverse_node]

theorem traverseChildren_nil (p : String) : traverseChildren [] p = [] := by
  simp [traverseChildren]

theorem traverseChildren_cons (c : Node) (cs : List Node) (p : String) :
    traverseChildren (c :: cs) p = traverse_node c p ++ traverseChildren cs p := by
  simp [traverseChildren]

/-- Whenever validate_node_sum succeeds, the value it returns is the
declared value of the node itself. -/
theorem validate_ok_declared (n : Node) (r : Rat)
    (h : validate_node_sum n = .ok r) : n.value = some r := by
  obtain ⟨nm, v, a, its⟩ := n
  cases v with
  | none => rw [validate_node_sum_novalue] at h; cases h
  | some vv =>
    cases its with
    | none =>
      rw [validate_node_sum_leaf] at h
      cases h
      rfl
    | some cs =>
      cases hcs : childrenSum cs with
      | error e => rw [validate_node_sum_internal_err nm vv a cs e hcs] at h; cases h
      | ok s =>
        rw [validate_node_sum_internal nm vv a cs s hcs] at h
        by_cases hgt : |vv - s| > 1 / 100
        · rw [if_pos hgt] at h; cases h
        · rw [if_neg hgt] at h; cases h; rfl

theorem exactTree_novalue (nm : String) (a : Option (Option String)) (its : Option (List Node)) :
    exactTree (.mk nm none a its) = false := by
  simp [exactTree]

theorem exactTree_leaf (nm : String) (v : Rat) (a : Option (Option String)) :
    exactTree (.mk nm (some v) a none) = true := by
  simp [exactTree]

theorem exactTree_internal (nm : String) (v : Rat) (a : Option (Option String)) (cs : List Node) :
    exactTree (.mk nm (some v) a (some cs)) = true ↔
      v = declaredSum cs ∧ exactList cs = true := by
  simp [exactTree]

theorem exactList_nil : exactList [] = true := by
  simp [exactList]

theorem exactList_cons (c : Node) (cs : List Node) :
    exactList (c :: cs) = true ↔ exactTree c = true ∧ exactList cs = true := by
  simp [exactList]

/-- In an exact tree every node validates and returns its declared
value. -/
theorem exactTree_validates :
    ∀ n, exactTree n = true → ∃ v, n.value = some v ∧ validate_node_sum n = .ok v := by
  refine node_ind _ (fun cs => exactList cs = true → childrenSum cs = .ok (declaredSum cs)) ?_ ?_ ?_ ?_
  · intro nm v a hex
    cases v with
    | none => rw [exactTree_novalue] at hex; cases hex
    | some vv => exact ⟨vv, rfl, validate_node_sum_leaf nm vv a⟩
  · intro nm v a cs hQ hex
    cases v with
    | none => rw [exactTree_novalue] at hex; cases hex
    | some vv =>
      obtain ⟨hv, hel⟩ := (exactTree_internal nm vv a cs).mp hex
      refine ⟨vv, rfl, ?_⟩
      rw [validate_node_sum_internal nm vv a cs (declaredSum cs) (hQ hel), if_neg]
      rw [hv]
      simp
  · intro _
    rw [childrenSum_nil]
    simp [declaredSum]
  · intro c cs hP hQ hex
    obtain ⟨hc, hcs⟩ := (exactList_cons c cs).mp hex
    obtain ⟨v, hv, hval⟩ := hP hc
    rw [childrenSum_cons, hval, hQ hcs]
    simp [declaredSum, hv]

/-- Claim C3: for a node whose children all validate, a ValueMismatch
ValueError is raised exactly when the absolute difference between the
declared value and the children sum exceeds 0.01, and otherwise the
declared value is returned; moreover any exact tree (every internal
node equal to the exact sum of its children) validates successfully. -/
theorem claim_C3 :
    (∀ (nm : String) (v : Rat) (a : Option (Option String)) (cs : List Node) (s : Rat),
        childrenSum cs = Except.ok s →
        ((validate_node_sum (Node.mk nm (some v) a (some cs)) =
            Except.error (PyErr.valueError (mismatchErrorMessage nm)) ↔ |v - s| > 1 / 100)
          ∧ (¬ |v - s| > 1 / 100 →
              validate_node_sum (Node.mk nm (some v) a (some cs)) = Except.ok v)))
    ∧ (∀ n : Node, exactTree n = true →
        ∃ v, n.value = some v ∧ validate_node_sum n = Except.ok v) := by
  constructor
  · intro nm v a cs s hcs
    rw [validate_node_sum_internal nm v a cs s hcs]
    constructor
    · by_cases hgt : |v - s| > 1 / 100
      · simp [hgt]
      · simp [hgt]
    · intro hle
      rw [if_neg hle]
  · exact exactTree_validates

/-- Witness for claim C3 at a concrete exact two-node tree. -/
theorem claim_C3_witness :
    childrenSum [Node.mk "b" (some 5) none none] = Except.ok 5 ∧
    validate_node_sum (Node.mk "a" (some 5) none (some [Node.mk "b" (some 5) none none])) =
      Except.ok 5 := by
  have hcs : childrenSum [Node.mk "b" (some 5) none none] = Except.ok 5 := by
    simp [childrenSum, validate_node_sum]
  exact ⟨hcs, (claim_C3.1 "a" 5 none [Node.mk "b" (some 5) none none] 5 hcs).2 (by norm_num)⟩

/-- Claim C4: a node that passes the check returns its own declared
value (a successful validate_node_sum always returns the declared
value), and a node without an items key returns its declared value with
no check at all. -/
theorem claim_C4 :
    (∀ (nm : String) (v : Rat) (a : Option (Option String)),
        validate_node_sum (Node.mk nm (some v) a none) = Except.ok v)
    ∧ (∀ (n : Node) (r : Rat), validate_node_sum n = Except.ok r → n.value = some r) :=
  ⟨validate_node_sum_leaf, validate_ok_declared⟩

/-- Witness for claim C4 at concrete nodes. -/
theorem claim_C4_witness :
    validate_node_sum (Node.mk "cash" (some 7) none none) = Except.ok 7 ∧
    (Node.mk "root" (some 3) none (some [Node.mk "sub" (some 3) none none])).value = some 3 := by
  refine ⟨claim_C4.1 "cash" 7 none, claim_C4.2 _ 3 ?_⟩
  simp [validate_node_sum, childrenSum]

/-- Claim C2: once the three section trees validate, the declared
assets total is compared to the sum of the declared liabilities and
equity totals with strict equality, and the AssertionError is raised
exactly when they are not exactly equal. -/
theorem claim_C2 (d : BalanceSheetData) (na nl ne : Node) (a l e : Rat)
    (hA : d.assets = some na) (hL : d.liabilities = some nl) (hE : d.equity = some ne)
    (hva : validate_node_sum na = Except.ok a) (hvl : validate_node_sum nl = Except.ok l)
    (hve : validate_node_sum ne = Except.ok e) :
    validate_balance_sheet_equation d =
      (if a = l + e then Except.ok a else Except.error (PyErr.assertionError equationErrorMessage))
    ∧ (validate_balance_sheet_equation d =
        Except.error (PyErr.assertionError equationErrorMessage) ↔ ¬ a = l + e) := by
  have hmain : validate_balance_sheet_equation d =
      (if a = l + e then Except.ok a
       else Except.error (PyErr.assertionError equationErrorMessage)) := by
    simp [validate_balance_sheet_equation, hA, hL, hE, hva, hvl, hve]
  refine ⟨hmain, ?_⟩
  rw [hmain]
  by_cases hc : a = l + e
  · simp [hc]
  · simp [hc]

/-- Witness for claim C2 at a concrete document with three leaf
sections satisfying the equation 10 = 4 + 6. -/
theorem claim_C2_witness :
    validate_balance_sheet_equation
      ⟨some (Node.mk "assets" (some 10) none none),
       some (Node.mk "liabilities" (some 4) none none),
       some (Node.mk "equity" (some 6) none none)⟩ = Except.ok 10 := by
  have h := (claim_C2
      ⟨some (Node.mk "assets" (some 10) none none),
       some (Node.mk "liabilities" (some 4) none none),
       some (Node.mk "equity" (some 6) none none)⟩
      (Node.mk "assets" (some 10) none none)
      (Node.mk "liabilities" (some 4) none none)
      (Node.mk "equity" (some 6) none none)
      10 4 6 rfl rfl rfl
      (validate_node_sum_leaf "assets" 10 none)
      (validate_node_sum_leaf "liabilities" 4 none)
      (validate_node_sum_leaf "equity" 6 none)).1
  rw [h, if_pos (by norm_num)]

/-- First concrete tree for claim C8: declared value 7 against a
children sum of 3. -/
def c8nodeA : Node := .mk "acct" (some 7) none (some [.mk "x" (some 3) none none])

/-- Second concrete tree for claim C8: same node name but declared
value 9 against a children sum of 4. -/
def c8nodeB : Node := .mk "acct" (some 9) none (some [.mk "y" (some 4) none none])

/-- Counterexample to claim C8 as stated: two mismatching trees with
the same node name but different declared values (7 versus 9) and
different children sums (3 versus 4) raise literally identical errors,
so the raised ValueError carries neither the declared value nor the
computed children sum; only the node name is interpolated into its
message. -/
theorem claim_C8_counterexample :
    validate_node_sum c8nodeA =
      Except.error (PyErr.valueError
        "Balance sheet validation failed: acct value does not match sum of its children")
    ∧ validate_node_sum c8nodeB =
      Except.error (PyErr.valueError
        "Balance sheet validation failed: acct value does not match sum of its children")
    ∧ validate_node_sum c8nodeA = validate_node_sum c8nodeB
    ∧ c8nodeA.value = some 7 ∧ c8nodeB.value = some 9 := by
  have hA : validate_node_sum c8nodeA =
      Except.error (PyErr.valueError
        "Balance sheet validation failed: acct value does not match sum of its children") := by
    have hcs : childrenSum [Node.mk "x" (some 3) none none] = Except.ok 3 := by
      simp [childrenSum, validate_node_sum]
    rw [c8nodeA, validate_node_sum_internal "acct" 7 none _ 3 hcs, if_pos (by norm_num)]
    rfl
  have hB : validate_node_sum c8nodeB =
      Except.error (PyErr.valueError
        "Balance sheet validation failed: acct value does not match sum of its children") := by
    have hcs : childrenSum [Node.mk "y" (some 4) none none] = Except.ok 4 := by
      simp [childrenSum, validate_node_sum]
    rw [c8nodeB, validate_node_sum_internal "acct" 9 none _ 4 hcs, if_pos (by norm_num)]
    rfl
  exact ⟨hA, hB, hA.trans hB.symm, rfl, rfl⟩

/-- Claim C8 amended: when a node fails the tolerance check, the raised
ValueError carries the node name (interpolated into its fixed message);
the declared value and the computed children sum do not appear in the
raised error (they are only written to the error log). -/
theorem claim_C8_amended (nm : String) (v : Rat) (a : Option (Option String))
    (cs : List Node) (s : Rat)
    (hcs : childrenSum cs = Except.ok s) (hgt : |v - s| > 1 / 100) :
    validate_node_sum (Node.mk nm (some v) a (some cs)) =
      Except.error (PyErr.valueError (mismatchErrorMessage nm)) := by
  rw [validate_node_sum_internal nm v a cs s hcs, if_pos hgt]

/-- Witness for the amended claim C8 at a concrete mismatching tree. -/
theorem claim_C8_witness :
    childrenSum [Node.mk "z" (some 1) none none] = Except.ok 1 ∧
    |(6:Rat) - 1| > 1 / 100 ∧
    validate_node_sum (Node.mk "loans" (some 6) none (some [Node.mk "z" (some 1) none none])) =
      Except.error (PyErr.valueError (mismatchErrorMessage "loans")) := by
  have hcs : childrenSum [Node.mk "z" (some 1) none none] = Except.ok 1 := by
    simp [childrenSum, validate_node_sum]
  exact ⟨hcs, by norm_num, claim_C8_amended "loans" 6 none _ 1 hcs (by norm_num)⟩

/-- Claim C9: a successful run of validate_balance_sheet_equation
returns the declared value of the assets root node. -/
theorem claim_C9 (d : BalanceSheetData) (r : Rat)
    (h : validate_balance_sheet_equation d = Except.ok r) :
    ∃ na, d.assets = some na ∧ na.value = some r := by
  cases hA : d.assets with
  | none => simp [validate_balance_sheet_equation, hA] at h
  | some na =>
    cases hva : validate_node_sum na with
    | error e0 => simp [validate_balance_sheet_equation, hA, hva] at h
    | ok a =>
      cases hL : d.liabilities with
      | none => simp [validate_balance_sheet_equation, hA, hva, hL] at h
      | some nl =>
        cases hvl : validate_node_sum nl with
        | error e0 => simp [validate_balance_sheet_equation, hA, hva, hL, hvl] at h
        | ok l =>
          cases hE : d.equity with
          | none => simp [validate_balance_sheet_equation, hA, hva, hL, hvl, hE] at h
          | some ne =>
            cases hve : validate_node_sum ne with
            | error e0 =>
              simp [validate_balance_sheet_equation, hA, hva, hL, hvl, hE, hve] at h
            | ok ev =>
              simp [validate_balance_sheet_equation, hA, hva, hL, hvl, hE, hve] at h
              by_cases hc : a = l + ev
              · rw [if_pos hc] at h
                cases h
                exact ⟨na, rfl, validate_ok_declared na r hva⟩
              · rw [if_neg hc] at h
                cases h

/-- Witness for claim C9 at a concrete document whose sections are
leaves with totals 12 = 5 + 7. -/
theorem claim_C9_witness :
    ∃ na,
      (BalanceSheetData.mk (some (Node.mk "assets" (some 12) none none))
        (some (Node.mk "liabilities" (some 5) none none))
        (some (Node.mk "equity" (some 7) none none))).assets = some na ∧
      na.value = some 12 := by
  refine claim_C9 _ 12 ?_
  have h12 : (12:Rat) = 5 + 7 := by norm_num
  simp [validate_balance_sheet_equation, validate_node_sum, h12]

/-- Claim C5: the schema check passes exactly when each of the keys
assets, liabilities, equity is present with an object value, and in
particular any document with those three object-typed keys passes
regardless of the content nested inside them. -/
theorem claim_C5 :
    (∀ fields : List (String × Json),
      validate_balance_sheet_json_schema fields = true ↔
        ((∃ va, lookupKey fields "assets" = some va ∧ va.isObj = true) ∧
         (∃ vl, lookupKey fields "liabilities" = some vl ∧ vl.isObj = true) ∧
         (∃ ve, lookupKey fields "equity" = some ve ∧ ve.isObj = true)))
    ∧ (∀ a l e : List (String × Json),
        validate_balance_sheet_json_schema
          [("assets", Json.obj a), ("liabilities", Json.obj l), ("equity", Json.obj e)] = true) := by
  constructor
  · intro fields
    cases h1 : lookupKey fields "assets" <;>
      cases h2 : lookupKey fields "liabilities" <;>
        cases h3 : lookupKey fields "equity" <;>
          simp [validate_balance_sheet_json_schema, requiredKeys, h1, h2, h3]
  · intro a l e
    simp [validate_balance_sheet_json_schema, requiredKeys, lookupKey, Json.isObj]

/-- Witness for claim C5: a document with three empty object sections
passes the schema check. -/
theorem claim_C5_witness :
    validate_balance_sheet_json_schema
      [("assets", Json.obj []), ("liabilities", Json.obj []), ("equity", Json.obj [])] = true :=
  claim_C5.2 [] [] []

/-- The flattener output is the concatenation, in section order, of the
traversals of the sections that are present. -/
theorem get_eq_sections (d : BalanceSheetData) :
    get_all_child_values d = (presentSections d).flatMap fun s => traverse_node s.2 s.1 := by
  obtain ⟨oa, ol, oe⟩ := d
  cases oa <;> cases ol <;> cases oe <;>
    simp [get_all_child_values, presentSections]

/-- Claim C10: get_all_child_values is total on documents with any of
the three section keys absent; absent sections are skipped and the
result is exactly the concatenated rows of the sections present. -/
theorem claim_C10 (d : BalanceSheetData) :
    get_all_child_values d = (presentSections d).flatMap fun s => traverse_node s.2 s.1 :=
  get_eq_sections d

theorem specFlatten_leaf (as : List String) (nm : String) (v : Option Rat)
    (a : Option (Option String)) :
    specFlatten as (.mk nm v a none) = ownRow nm v a (joinPath as) := by
  simp [specFlatten]

theorem specFlatten_internal (as : List String) (nm : String) (v : Option Rat)
    (a : Option (Option String)) (cs : List Node) :
    specFlatten as (.mk nm v a (some cs)) =
      ownRow nm v a (joinPath as) ++ specFlattenList (as ++ [nm]) cs := by
  simp [specFlatten]

theorem specFlattenList_nil (as : List String) : specFlattenList as [] = [] := by
  simp [specFlattenList]

theorem specFlattenList_cons (as : List String) (c : Node) (cs : List Node) :
    specFlattenList as (c :: cs) = specFlatten as c ++ specFlattenList as cs := by
  simp [specFlattenList]

theorem preorderPaths_leaf (nm : String) (v : Option Rat) (a : Option (Option String))
    (p : String) :
    preorderPaths (.mk nm v a none) p = [(p, Node.mk nm v a none)] := by
  simp [preorderPaths]

theorem preorderPaths_internal (nm : String) (v : Option Rat) (a : Option (Option String))
    (cs : List Node) (p : String) :
    preorderPaths (.mk nm v a (some cs)) p =
      (p, Node.mk nm v a (some cs)) :: preorderPathsList cs (childPath p nm) := by
  simp [preorderPaths]

theorem preorderPathsList_nil (p : String) : preorderPathsList [] p = [] := by
  simp [preorderPathsList]

theorem preorderPathsList_cons (c : Node) (cs : List Node) (p : String) :
    preorderPathsList (c :: cs) p = preorderPaths c p ++ preorderPathsList cs p := by
  simp [preorderPathsList]

theorem allNodes_leaf (nm : String) (v : Option Rat) (a : Option (Option String)) :
    allNodes (.mk nm v a none) = [Node.mk nm v a none] := by
  simp [allNodes]

theorem allNodes_internal (nm : String) (v : Option Rat) (a : Option (Option String))
    (cs : List Node) :
    allNodes (.mk nm v a (some cs)) = Node.mk nm v a (some cs) :: allNodesList cs := by
  simp [allNodes]

theorem allNodesList_nil : allNodesList [] = [] := by
  simp [allNodesList]

theorem allNodesList_cons (c : Node) (cs : List Node) :
    allNodesList (c :: cs) = allNodes c ++ allNodesList cs := by
  simp [allNodesList]

theorem ownRow_emitRecord (nm : String) (v : Option Rat) (a : Option (Option String))
    (its : Option (List Node)) (p : String) :
    ownRow nm v a p = (emitRecord p (Node.mk nm v a its)).toList := by
  obtain _ | vv := v <;> obtain _ | (_ | acc) := a <;> rfl

theorem ownRow_map_rowData (nm : String) (v : Option Rat) (a : Option (Option String))
    (its : Option (List Node)) (p : String) :
    ((ownRow nm v a p).map fun r => (r.name, r.value, r.account_id)) =
      (rowData (Node.mk nm v a its)).toList := by
  obtain _ | vv := v <;> obtain _ | (_ | acc) := a <;> rfl

theorem rowData_isSome_eq_hasRow (n : Node) : (rowData n).isSome = hasRow n := by
  obtain ⟨nm, v, a, its⟩ := n
  obtain _ | vv := v <;> obtain _ | (_ | acc) := a <;> rfl

theorem filterMap_rowData_length (ns : List Node) :
    (ns.filterMap rowData).length = (ns.filter hasRow).length := by
  induction ns with
  | nil => rfl
  | cons n rest ih =>
    cases h : rowData n with
    | none =>
      have hr : hasRow n = false := by rw [← rowData_isSome_eq_hasRow, h]; rfl
      simp [List.filterMap_cons, List.filter_cons, h, hr, ih]
    | some q =>
      have hr : hasRow n = true := by rw [← rowData_isSome_eq_hasRow, h]; rfl
      simp [List.filterMap_cons, List.filter_cons, h, hr, ih]

/-- Fusion of the traversal with the preorder enumeration: the rows of
traverse_node are exactly the qualifying nodes of the depth-first
preorder enumeration, in that order. -/
theorem traverse_filterMap_preorder :
    ∀ n : Node, ∀ p,
      traverse_node n p = (preorderPaths n p).filterMap fun q => emitRecord q.1 q.2 := by
  refine node_ind
    (fun n => ∀ p, traverse_node n p = (preorderPaths n p).filterMap fun q => emitRecord q.1 q.2)
    (fun cs => ∀ p,
      traverseChildren cs p = (preorderPathsList cs p).filterMap fun q => emitRecord q.1 q.2)
    ?_ ?_ ?_ ?_
  · intro nm v a p
    rw [traverse_node_leaf, preorderPaths_leaf, List.filterMap_cons,
      ownRow_emitRecord nm v a none p]
    cases hem : emitRecord p (Node.mk nm v a none) <;> simp [hem]
  · intro nm v a cs hQ p
    rw [traverse_node_internal, preorderPaths_internal, List.filterMap_cons,
      ownRow_emitRecord nm v a (some cs) p, hQ (childPath p nm)]
    cases hem : emitRecord p (Node.mk nm v a (some cs)) <;> simp [hem]
  · intro p
    rw [traverseChildren_nil, preorderPathsList_nil]
    rfl
  · intro c cs hP hQ p
    rw [traverseChildren_cons, preorderPathsList_cons, List.filterMap_append, hP p, hQ p]

/-- The name, value and account data of the traversal rows are exactly
those of the qualifying nodes in preorder. -/
theorem traverse_map_rowData :
    ∀ n : Node, ∀ p,
      ((traverse_node n p).map fun r => (r.name, r.value, r.account_id)) =
        (allNodes n).filterMap rowData := by
  refine node_ind
    (fun n => ∀ p,
      ((traverse_node n p).map fun r => (r.name, r.value, r.account_id)) =
        (allNodes n).filterMap rowData)
    (fun cs => ∀ p,
      ((traverseChildren cs p).map fun r => (r.name, r.value, r.account_id)) =
        (allNodesList cs).filterMap rowData)
    ?_ ?_ ?_ ?_
  · intro nm v a p
    rw [traverse_node_leaf, allNodes_leaf, List.filterMap_cons,
      ownRow_map_rowData nm v a none p]
    cases hr : rowData (Node.mk nm v a none) <;> simp [hr]
  · intro nm v a cs hQ p
    rw [traverse_node_internal, allNodes_internal, List.filterMap_cons, List.map_append,
      ownRow_map_rowData nm v a (some cs) p, hQ (childPath p nm)]
    cases hr : rowData (Node.mk nm v a (some cs)) <;> simp [hr]
  · intro p
    rw [traverseChildren_nil, allNodesList_nil]
    rfl
  · intro c cs hP hQ p
    rw [traverseChildren_cons, allNodesList_cons, List.map_append, List.filterMap_append,
      hP p, hQ p]

/-- Claim C6: the flattener emits exactly one row per node that has
both a value field and a non-null account_id, in preorder across the
three sections, each row carrying the name, value and account_id of
its node; in particular the row count equals the count of such nodes. -/
theorem claim_C6 (d : BalanceSheetData) :
    ((get_all_child_values d).map fun r => (r.name, r.value, r.account_id)) =
      (docNodes d).filterMap rowData
    ∧ (get_all_child_values d).length = ((docNodes d).filter hasRow).length := by
  have hmap : ((get_all_child_values d).map fun r => (r.name, r.value, r.account_id)) =
      (docNodes d).filterMap rowData := by
    obtain ⟨oa, ol, oe⟩ := d
    cases oa <;> cases ol <;> cases oe <;>
      simp [get_all_child_values, docNodes, List.map_append, List.filterMap_append,
        traverse_map_rowData]
  refine ⟨hmap, ?_⟩
  have hlen := congrArg List.length hmap
  rw [List.length_map] at hlen
  rw [hlen, filterMap_rowData_length]

/-- Claim C7: the flattener output is the depth-first preorder
enumeration of the sections present, in the order assets, liabilities,
equity, filtered down to the qualifying nodes — node before children,
children in items order, rows in insertion order. -/
theorem claim_C7 (d : BalanceSheetData) :
    get_all_child_values d =
      (presentSections d).flatMap fun s =>
        (preorderPaths s.2 s.1).filterMap fun q => emitRecord q.1 q.2 := by
  rw [get_eq_sections]
  simp only [traverse_filterMap_preorder]

theorem joinPath_cons_cons (x y : String) (ys : List String) :
    joinPath (x :: y :: ys) = x ++ "/" ++ joinPath (y :: ys) := rfl

theorem joinPath_append_single (nm : String) :
    ∀ as : List String, as ≠ [] → joinPath (as ++ [nm]) = joinPath as ++ "/" ++ nm := by
  intro as
  induction as with
  | nil => intro h; exact absurd rfl h
  | cons x xs ih =>
    intro _
    cases xs with
    | nil => rfl
    | cons y ys =>
      have step1 : joinPath ((x :: y :: ys) ++ [nm]) =
          x ++ "/" ++ joinPath ((y :: ys) ++ [nm]) := rfl
      rw [step1, ih (by simp), joinPath_cons_cons]
      simp [String.append_assoc]

theorem append_slash_ne_empty (s t : String) : s ++ "/" ++ t ≠ "" := by
  intro h
  have hlen := congrArg String.length h
  rw [String.length_append, String.length_append] at hlen
  have h1 : String.length "/" = 1 := rfl
  have h0 : String.length "" = 0 := rfl
  rw [h1, h0] at hlen
  omega

theorem joinPath_append_ne (nm : String) (as : List String) (h : joinPath as ≠ "") :
    joinPath (as ++ [nm]) ≠ "" := by
  have hne : as ≠ [] := by intro hh; subst hh; exact h rfl
  rw [joinPath_append_single nm as hne]
  exact append_slash_ne_empty _ nm

theorem childPath_of_ne (p nm : String) (h : p ≠ "") : childPath p nm = p ++ "/" ++ nm := by
  rw [childPath, if_neg h]

/-- The traversal seeded with a nonempty slash-join of an ancestor list
coincides with the specification flattener that threads ancestor-name
lists: every node is emitted with path the slash-join of the section
key followed by the name fields of ALL its ancestors, the section root
included, and not including the node itself. -/
theorem traverse_joinPath_spec :
    ∀ n : Node, ∀ as : List String, joinPath as ≠ "" →
      traverse_node n (joinPath as) = specFlatten as n := by
  refine node_ind
    (fun n => ∀ as, joinPath as ≠ "" → traverse_node n (joinPath as) = specFlatten as n)
    (fun cs => ∀ as, joinPath as ≠ "" → traverseChildren cs (joinPath as) = specFlattenList as cs)
    ?_ ?_ ?_ ?_
  · intro nm v a as _
    rw [traverse_node_leaf, specFlatten_leaf]
  · intro nm v a cs hQ as h
    have hne : as ≠ [] := by intro hh; subst hh; exact h rfl
    rw [traverse_node_internal, specFlatten_internal]
    congr 1
    rw [childPath_of_ne _ _ h, ← joinPath_append_single nm as hne]
    exact hQ (as ++ [nm]) (joinPath_append_ne nm as h)
  · intro as _
    rw [traverseChildren_nil, specFlattenList_nil]
  · intro c cs hP hQ as h
    rw [traverseChildren_cons, specFlattenList_cons, hP as h, hQ as h]

/-- Concrete document for the claim C1 counterexample: an assets
section whose root is named assets and has one direct child cash that
carries a value and a non-null account_id. -/
def c1doc : BalanceSheetData :=
  ⟨some (.mk "assets" (some 100) none (some [.mk "cash" (some 100) (some (some "A1")) none])),
   none, none⟩

/-- Counterexample to claim C1 as stated: in c1doc the node cash is a
direct child of the assets section root and carries a value and a
non-null account_id, yet its emitted path is assets/assets — the
section key followed by the name of the section root — and not the
section name assets alone. -/
theorem claim_C1_counterexample :
    get_all_child_values c1doc =
      [{ account_id := "A1", path := "assets/assets", name := "cash", value := 100 }]
    ∧ "assets/assets" ≠ "assets" := by
  constructor
  · simp [c1doc, get_all_child_values, traverse_node, traverseChildren, ownRow, childPath]
  · decide

/-- Claim C1 amended: the path of every emitted node is the slash-join
of the section key followed by the name fields of all of its ancestors
below the document root, the section root node included and the node
itself excluded; consequently the children of any node traversed with a
nonempty path p are traversed with path p + "/" + that node name, so a
direct child of a section root gets the section key followed by the
root name, not the bare section key. -/
theorem claim_C1_path :
    (∀ (n : Node) (ancestors : List String), joinPath ancestors ≠ "" →
        traverse_node n (joinPath ancestors) = specFlatten ancestors n)
    ∧ (∀ (nm : String) (v : Option Rat) (a : Option (Option String)) (cs : List Node)
        (s : String), s ≠ "" →
        traverse_node (Node.mk nm v a (some cs)) s =
          ownRow nm v a s ++ traverseChildren cs (s ++ "/" ++ nm)) := by
  constructor
  · exact traverse_joinPath_spec
  · intro nm v a cs s hs
    rw [traverse_node_internal, childPath_of_ne s nm hs]

/-- Witness for the amended claim C1 at a concrete ancestor chain and
node. -/
theorem claim_C1_witness :
    joinPath ["assets"] ≠ "" ∧
    traverse_node (Node.mk "root" (some 1) (some (some "R1")) none) (joinPath ["assets"]) =
      specFlatten ["assets"] (Node.mk "root" (some 1) (some (some "R1")) none) :=
  ⟨by decide, claim_C1_path.1 (Node.mk "root" (some 1) (some (some "R1")) none) ["assets"] (by decide)⟩
